import Mathlib

/-!
Shallow embedding of the utterance-delimiting core of the discrivener
voice-transcription pipeline (src/src/voice_buffer.rs,
src/discrivener/src/packet_handler.rs, src/discrivener/src/whisper.rs),
with theorems settling the specification claims about it.

Machine integers are modelled as `Nat`/`Int`; `f32` samples are modelled
as `ℚ` (the claims here involve only exactly representable values);
callbacks are modelled by returning the clips that would be handed off.
-/

/-! ## Shared constants (src/discrivener/src/types.rs) -/

def AUDIO_CHANNELS : Nat := 2

def DISCORD_SAMPLES_PER_SECOND : Nat := 48000

def DISCORD_SAMPLES_PER_MILLISECOND : Nat := DISCORD_SAMPLES_PER_SECOND / 1000

def PERIOD_PER_PACKET_GROUP_MS : Nat := 20

def AUDIO_SAMPLES_PER_FRAME : Nat :=
  DISCORD_SAMPLES_PER_MILLISECOND * PERIOD_PER_PACKET_GROUP_MS

def AUDIO_TO_RECORD_SECONDS : Nat := 30

def AUDIO_TO_RECORD_MILLISECONDS : Nat := AUDIO_TO_RECORD_SECONDS * 1000

def AUDIO_TO_RECORD_FRAMES : Nat :=
  AUDIO_TO_RECORD_MILLISECONDS / PERIOD_PER_PACKET_GROUP_MS

def AUDIO_BUFFER_SIZE : Nat :=
  AUDIO_SAMPLES_PER_FRAME * AUDIO_TO_RECORD_FRAMES * AUDIO_CHANNELS

def WHISPER_SAMPLES_PER_SECOND : Nat := 16000

/-- The sample type `types::AudioSample` is `i16`; modelled as `Int`. -/
abbrev AudioSample := Int

/-! ## VoiceBuffer (src/src/voice_buffer.rs)

The ring buffer (`ringbuf::HeapRb` of capacity `cap`) is modelled as the
list of currently stored samples, oldest first.  `push` and
`flush_buffer` return the new contents together with the clip handed to
the `on_buffer_full_fn` callback (`none` when the callback is not
invoked).  `ringbuf`'s `push_slice` appends as many samples as fit and
silently drops the rest, hence the `List.take`. -/

/-- Model of `VoiceBuffer::push`: if the ring's free capacity is smaller than the
frame, first flush (emit the entire current contents and clear), then
append the frame (truncated to what fits, as `push_slice` does). -/
def VoiceBuffer.push (cap : Nat) (buf frame : List AudioSample) :
    List AudioSample × Option (List AudioSample) :=
  if cap - buf.length < frame.length then
    (frame.take cap, some buf)
  else
    (buf ++ frame, none)

/-- Model of `VoiceBuffer::flush_buffer`: no-op on an empty ring, otherwise emit
the entire contents as one clip and clear the ring. -/
def VoiceBuffer.flush_buffer (buf : List AudioSample) :
    List AudioSample × Option (List AudioSample) :=
  if buf.isEmpty then (buf, none) else ([], some buf)

/-- A sequence of `push` calls, collecting every clip handed off. -/
def VoiceBuffer.pushAll (cap : Nat) (buf : List AudioSample) :
    List (List AudioSample) → List AudioSample × List (List AudioSample)
  | [] => (buf, [])
  | f :: fs =>
    let step := VoiceBuffer.push cap buf f
    let rest := VoiceBuffer.pushAll cap step.1 fs
    (rest.1, step.2.toList ++ rest.2)

/-! ## VoiceBufferForUser (src/src/voice_buffer.rs) -/

/-- Model of `VoiceBufferForUser`: the per-user ring plus the speaking flag. -/
structure VoiceBufferForUser where
  user_id : Nat
  buf : List AudioSample
  speaking : Bool
  deriving DecidableEq, Repr

/-- Model of `VoiceBufferForUser::new`: fresh empty buffer, `speaking: true`. -/
def VoiceBufferForUser.new (user_id : Nat) : VoiceBufferForUser :=
  { user_id := user_id, buf := [], speaking := true }

/-- Model of `VoiceBufferForUser::push`.  Returns the new state, the clip handed
off (if any), and whether the anomalous-audio log line was printed.
While not speaking, an all-zero frame is silently dropped and any other
frame is logged and dropped; neither touches the ring. -/
def VoiceBufferForUser.push (cap : Nat) (s : VoiceBufferForUser)
    (frame : List AudioSample) :
    VoiceBufferForUser × Option (List AudioSample) × Bool :=
  if s.speaking = false then
    if frame.all (fun sample => sample = 0) then
      (s, none, false)
    else
      (s, none, true)
  else
    let step := VoiceBuffer.push cap s.buf frame
    ({ s with buf := step.1 }, step.2, false)

/-- Model of `VoiceBufferForUser::on_start_talking`. -/
def VoiceBufferForUser.on_start_talking (s : VoiceBufferForUser) :
    VoiceBufferForUser :=
  { s with speaking := true }

/-- Model of `VoiceBufferForUser::on_stop_talking`: clear the speaking flag and
flush. -/
def VoiceBufferForUser.on_stop_talking (s : VoiceBufferForUser) :
    VoiceBufferForUser × Option (List AudioSample) :=
  let step := VoiceBuffer.flush_buffer s.buf
  ({ s with speaking := false, buf := step.1 }, step.2)

/-! ### Basic lemmas about the ring -/

lemma VoiceBuffer.push_length_le (cap : Nat) (buf frame : List AudioSample)
    (h : buf.length ≤ cap) :
    (VoiceBuffer.push cap buf frame).1.length ≤ cap := by
  unfold VoiceBuffer.push
  split
  · simp only [List.length_take]
    omega
  · rename_i hfit
    simp only [List.length_append]
    omega

lemma VoiceBuffer.pushAll_length_le (cap : Nat)
    (frames : List (List AudioSample)) :
    ∀ buf : List AudioSample, buf.length ≤ cap →
      (VoiceBuffer.pushAll cap buf frames).1.length ≤ cap := by
  induction frames with
  | nil => intro buf h; simp only [VoiceBuffer.pushAll]; exact h
  | cons f fs ih =>
    intro buf h
    simp only [VoiceBuffer.pushAll]
    exact ih _ (VoiceBuffer.push_length_le cap buf f h)

/-! ## PacketHandler (src/discrivener/src/packet_handler.rs)

The `ssrc_to_user_voice_data` map is modelled as a function from SSRC to
an optional session.  `on_user_join` returns `none` when the
`assert!(user_voice_data.user_id == user_id)` fails (the process
aborts); otherwise it returns the new map together with the clips
flushed during the call (there are none: the old session is replaced,
never flushed). -/

/-- Model of `PacketHandler::on_user_join`: if a session already exists for the
SSRC, assert its user id matches and re-arm it to speaking; then (in
either case) insert a brand-new session with a fresh empty buffer and
`speaking = true`, replacing whatever was there. -/
def PacketHandler.on_user_join (m : Nat → Option VoiceBufferForUser)
    (ssrc user_id : Nat) :
    Option ((Nat → Option VoiceBufferForUser) × List (List AudioSample)) :=
  match m ssrc with
  | some s =>
    if s.user_id = user_id then
      let m1 : Nat → Option VoiceBufferForUser := fun k =>
        if k = ssrc then some (VoiceBufferForUser.on_start_talking s) else m k
      some (fun k =>
        if k = ssrc then some (VoiceBufferForUser.new user_id) else m1 k, [])
    else
      none
  | none =>
    some (fun k =>
      if k = ssrc then some (VoiceBufferForUser.new user_id) else m k, [])

/-! ## Whisper (src/discrivener/src/whisper.rs) -/

def MIN_AUDIO_THRESHOLD_MS : Nat := 500

def MAX_TOKENS_PER_SEGMENT : Nat := 100

/-- Model of `api_types::TextSegment`. -/
structure TextSegment where
  text : String
  start_offset_ms : Nat
  end_offset_ms : Nat
  deriving DecidableEq, Repr

/-- Model of `api_types::TranscribedMessage`. -/
structure TranscribedMessage where
  timestamp : Nat
  user_id : Nat
  text_segments : List TextSegment
  audio_duration_ms : Nat
  processing_time_ms : Nat
  deriving DecidableEq, Repr

/-- Model of `whisper::LastTranscriptionData`: the single shared transcription
context. -/
structure LastTranscriptionData where
  tokens : List Int
  timestamp : Nat
  user_id : Nat
  deriving DecidableEq, Repr

/-- Model of `LastTranscriptionData::from_transcribed_message`: tokenize each
segment's text (dropping segments whose tokenization errors) and
concatenate; the context's timestamp is the given completion time and
its owner is the message's speaker.  `tokenize` models
`WhisperContext::tokenize`, with `none` for `Err`. -/
def LastTranscriptionData.from_transcribed_message
    (tokenize : String → Option (List Int))
    (message : TranscribedMessage) (end_timestamp : Nat) :
    LastTranscriptionData :=
  { tokens :=
      ((message.text_segments.map (fun segment => tokenize segment.text)).filterMap
        id).flatten
    timestamp := end_timestamp
    user_id := message.user_id }

/-- Wrapping `u64` subtraction, as Rust release mode computes
`unixsecs - last_transcription.timestamp`. -/
def sub_u64 (a b : Nat) : Nat := (a + 2 ^ 64 - b) % 2 ^ 64

/-- Model of `Duration::as_secs` on a wall-clock time held in milliseconds:
truncation to whole seconds. -/
def as_secs_of_ms (ms : Nat) : Nat := ms / 1000

/-- The context-carryover decision in `Whisper::on_audio_complete`
(whisper.rs lines 121-132): the stored context is used only if it ended
less than 5 (integer, truncated) seconds before `unixsecs` and belongs
to the same user. -/
def should_use_last_transcription (unixsecs user_id : Nat)
    (lt : Option LastTranscriptionData) : Option LastTranscriptionData :=
  match lt with
  | none => none
  | some last =>
    if sub_u64 unixsecs last.timestamp < 5 then
      if last.user_id = user_id then some last else none
    else
      none

/-- The `audio_duration_ms` value as computed at the top of
`Whisper::on_audio_complete` from the clip's sample count. -/
def audio_duration_ms_of (sampleCount : Nat) : Nat :=
  (sampleCount / AUDIO_CHANNELS) / DISCORD_SAMPLES_PER_MILLISECOND

/-- The duration gate of `Whisper::on_audio_complete`: `true` exactly
when the clip is retained and a transcription task is spawned. -/
def on_audio_complete_spawns (audio : List AudioSample) : Bool :=
  if audio_duration_ms_of audio.length < MIN_AUDIO_THRESHOLD_MS then
    false
  else
    true

/-- The tail of the spawned transcription task, after the engine has
returned `segments` (whisper.rs lines 139-171): on an empty result the
shared context `ctx` is left untouched and nothing is emitted; otherwise
the context is overwritten from the new message and exactly that one
message is emitted.  Returns the new shared context and the emitted
messages. -/
def finish_transcription (tokenize : String → Option (List Int))
    (segments : List TextSegment)
    (unixsecs user_id audio_duration_ms processing_time_ms end_secs : Nat)
    (ctx : Option LastTranscriptionData) :
    Option LastTranscriptionData × List TranscribedMessage :=
  if segments.length = 0 then
    (ctx, [])
  else
    let transcribed_message : TranscribedMessage :=
      { timestamp := unixsecs
        user_id := user_id
        text_segments := segments
        audio_duration_ms := audio_duration_ms
        processing_time_ms := processing_time_ms }
    let last_data :=
      LastTranscriptionData.from_transcribed_message tokenize
        transcribed_message end_secs
    (some last_data, [transcribed_message])

/-! ### Resampling (whisper.rs lines 175-222) -/

def BITRATE_CONVERSION_RATIO : Nat :=
  DISCORD_SAMPLES_PER_SECOND / WHISPER_SAMPLES_PER_SECOND

def GROUP_SIZE : Nat := BITRATE_CONVERSION_RATIO * AUDIO_CHANNELS

/-- The conversion loop of `resample_audio_from_discord_to_whisper`:
for each full group of `GROUP_SIZE` native samples (`chunks_exact`
drops a trailing partial group), sum the first `AUDIO_CHANNELS` samples
of the group into one output sample.  `f32` is modelled as `ℚ`. -/
def resampleSums (audio : List AudioSample) : List ℚ :=
  (List.range (audio.length / GROUP_SIZE)).map (fun i =>
    (((audio.drop (GROUP_SIZE * i)).take AUDIO_CHANNELS).map
      (fun (x : AudioSample) => (x : ℚ))).sum)

/-- The `audio_max` accumulator of the conversion loop: starting from
`0.0`, replace it by `val.abs()` whenever that is larger. -/
def audioMax (sums : List ℚ) : ℚ :=
  sums.foldl (fun m v => if |v| > m then |v| else m) 0

/-- Model of `resample_audio_from_discord_to_whisper`: the summed groups, each
divided by `audio_max` (no guard against `audio_max = 0`). -/
def resample_audio_from_discord_to_whisper (audio : List AudioSample) :
    List ℚ :=
  (resampleSums audio).map (fun sample => sample / audioMax (resampleSums audio))

/-! ## Event traces for one per-user buffer

Used to state that flushed clips only ever contain samples pushed while
the state was Speaking. -/

/-- The three signals a `VoiceBufferForUser` consumes. -/
inductive VoiceEvent where
  | push (frame : List AudioSample)
  | startTalking
  | stopTalking
  deriving DecidableEq, Repr

/-- One event step; the second component lists the clips handed off. -/
def VoiceBufferForUser.step (cap : Nat) (s : VoiceBufferForUser) :
    VoiceEvent → VoiceBufferForUser × List (List AudioSample)
  | .push frame =>
    let r := VoiceBufferForUser.push cap s frame
    (r.1, r.2.1.toList)
  | .startTalking => (VoiceBufferForUser.on_start_talking s, [])
  | .stopTalking =>
    let r := VoiceBufferForUser.on_stop_talking s
    (r.1, r.2.toList)

/-- Run a trace of events, collecting all handed-off clips. -/
def VoiceBufferForUser.run (cap : Nat) (s : VoiceBufferForUser) :
    List VoiceEvent → VoiceBufferForUser × List (List AudioSample)
  | [] => (s, [])
  | e :: es =>
    let r := VoiceBufferForUser.step cap s e
    let rest := VoiceBufferForUser.run cap r.1 es
    (rest.1, r.2 ++ rest.2)

/-- The samples an event contributes while the state is Speaking. -/
def VoiceBufferForUser.eventSpoken (s : VoiceBufferForUser) :
    VoiceEvent → List AudioSample
  | .push frame => if s.speaking then frame else []
  | .startTalking => []
  | .stopTalking => []

/-- All samples pushed while the state was Speaking, along a trace. -/
def VoiceBufferForUser.spokenSamples (cap : Nat) (s : VoiceBufferForUser) :
    List VoiceEvent → List AudioSample
  | [] => []
  | e :: es =>
    VoiceBufferForUser.eventSpoken s e ++
      VoiceBufferForUser.spokenSamples cap (VoiceBufferForUser.step cap s e).1 es

lemma VoiceBufferForUser.step_buf_mem (cap : Nat) (s : VoiceBufferForUser)
    (e : VoiceEvent) (x : AudioSample)
    (hx : x ∈ (VoiceBufferForUser.step cap s e).1.buf) :
    x ∈ s.buf ∨ x ∈ VoiceBufferForUser.eventSpoken s e := by
  cases e with
  | push frame =>
    cases hsp : s.speaking with
    | false =>
      simp only [VoiceBufferForUser.step] at hx
      unfold VoiceBufferForUser.push at hx
      rw [hsp] at hx
      rw [if_pos rfl] at hx
      left
      split at hx
      · exact hx
      · exact hx
    | true =>
      simp only [VoiceBufferForUser.step] at hx
      unfold VoiceBufferForUser.push at hx
      rw [hsp] at hx
      rw [if_neg (by simp)] at hx
      simp only [VoiceBufferForUser.eventSpoken, hsp, if_true]
      unfold VoiceBuffer.push at hx
      split at hx
      · have hx2 : x ∈ List.take cap frame := hx
        exact Or.inr (List.mem_of_mem_take hx2)
      · have hx2 : x ∈ s.buf ++ frame := hx
        rcases List.mem_append.mp hx2 with h | h
        · exact Or.inl h
        · exact Or.inr h
  | startTalking =>
    left
    simpa [VoiceBufferForUser.step, VoiceBufferForUser.on_start_talking] using hx
  | stopTalking =>
    simp only [VoiceBufferForUser.step, VoiceBufferForUser.on_stop_talking] at hx
    unfold VoiceBuffer.flush_buffer at hx
    split at hx
    · exact Or.inl hx
    · simp at hx

lemma VoiceBufferForUser.step_emit_mem (cap : Nat) (s : VoiceBufferForUser)
    (e : VoiceEvent) (clip : List AudioSample) (x : AudioSample)
    (hclip : clip ∈ (VoiceBufferForUser.step cap s e).2) (hx : x ∈ clip) :
    x ∈ s.buf := by
  cases e with
  | push frame =>
    cases hsp : s.speaking with
    | false =>
      simp only [VoiceBufferForUser.step] at hclip
      unfold VoiceBufferForUser.push at hclip
      rw [hsp] at hclip
      rw [if_pos rfl] at hclip
      split at hclip
      · simp at hclip
      · simp at hclip
    | true =>
      simp only [VoiceBufferForUser.step] at hclip
      unfold VoiceBufferForUser.push at hclip
      rw [hsp] at hclip
      rw [if_neg (by simp)] at hclip
      unfold VoiceBuffer.push at hclip
      split at hclip
      · have h2 : clip ∈ (some s.buf).toList := hclip
        simp at h2
        subst h2
        exact hx
      · have h2 : clip ∈ (none : Option (List AudioSample)).toList := hclip
        simp at h2
  | startTalking =>
    simp [VoiceBufferForUser.step] at hclip
  | stopTalking =>
    simp only [VoiceBufferForUser.step, VoiceBufferForUser.on_stop_talking] at hclip
    unfold VoiceBuffer.flush_buffer at hclip
    split at hclip
    · have h2 : clip ∈ (none : Option (List AudioSample)).toList := hclip
      simp at h2
    · have h2 : clip ∈ (some s.buf).toList := hclip
      simp at h2
      subst h2
      exact hx

lemma VoiceBufferForUser.run_mem (cap : Nat) (es : List VoiceEvent) :
    ∀ s : VoiceBufferForUser,
      (∀ clip ∈ (VoiceBufferForUser.run cap s es).2, ∀ x ∈ clip,
        x ∈ s.buf ∨ x ∈ VoiceBufferForUser.spokenSamples cap s es) ∧
      (∀ x ∈ (VoiceBufferForUser.run cap s es).1.buf,
        x ∈ s.buf ∨ x ∈ VoiceBufferForUser.spokenSamples cap s es) := by
  induction es with
  | nil =>
    intro s
    constructor
    · intro clip hclip
      simp [VoiceBufferForUser.run] at hclip
    · intro x hx
      exact Or.inl hx
  | cons e es ih =>
    intro s
    have step_or : ∀ x : AudioSample,
        x ∈ (VoiceBufferForUser.step cap s e).1.buf ∨
          x ∈ VoiceBufferForUser.spokenSamples cap
            (VoiceBufferForUser.step cap s e).1 es →
        x ∈ s.buf ∨ x ∈ VoiceBufferForUser.spokenSamples cap s (e :: es) := by
      intro x hx
      rcases hx with hx | hx
      · rcases VoiceBufferForUser.step_buf_mem cap s e x hx with h | h
        · exact Or.inl h
        · right
          simp only [VoiceBufferForUser.spokenSamples]
          exact List.mem_append.mpr (Or.inl h)
      · right
        simp only [VoiceBufferForUser.spokenSamples]
        exact List.mem_append.mpr (Or.inr hx)
    constructor
    · intro clip hclip x hx
      simp only [VoiceBufferForUser.run] at hclip
      rcases List.mem_append.mp hclip with h | h
      · exact Or.inl (VoiceBufferForUser.step_emit_mem cap s e clip x h hx)
      · exact step_or x ((ih (VoiceBufferForUser.step cap s e).1).1 clip h x hx)
    · intro x hx
      simp only [VoiceBufferForUser.run] at hx
      exact step_or x ((ih (VoiceBufferForUser.step cap s e).1).2 x hx)

/-! ## Claim theorems -/

/-- C1: for every sequence of `push` calls on a buffer in the Speaking
state, a frame longer than the ring's free capacity causes the ring's
entire current contents to be emitted and cleared before the frame is
appended, while a frame that fits is simply appended; hence the number
of stored samples never exceeds the fixed capacity, over any sequence
of pushes. -/
theorem voiceBuffer_push_never_overruns (cap : Nat)
    (buf frame : List AudioSample) (frames : List (List AudioSample))
    (h : buf.length ≤ cap) :
    (cap - buf.length < frame.length →
      VoiceBuffer.push cap buf frame = (frame.take cap, some buf)) ∧
    (frame.length ≤ cap - buf.length →
      VoiceBuffer.push cap buf frame = (buf ++ frame, none)) ∧
    (VoiceBuffer.push cap buf frame).1.length ≤ cap ∧
    (VoiceBuffer.pushAll cap buf frames).1.length ≤ cap := by
  refine ⟨?_, ?_, VoiceBuffer.push_length_le cap buf frame h,
    VoiceBuffer.pushAll_length_le cap frames buf h⟩
  · intro hover
    unfold VoiceBuffer.push
    rw [if_pos hover]
  · intro hfit
    unfold VoiceBuffer.push
    rw [if_neg (by omega)]

theorem voiceBuffer_push_never_overruns_witness :
    ([1, 2] : List AudioSample).length ≤ 4 ∧
    ((4 - ([1, 2] : List AudioSample).length < ([3, 4, 5] : List AudioSample).length →
      VoiceBuffer.push 4 [1, 2] [3, 4, 5] = (([3, 4, 5] : List AudioSample).take 4, some [1, 2])) ∧
    (([3, 4, 5] : List AudioSample).length ≤ 4 - ([1, 2] : List AudioSample).length →
      VoiceBuffer.push 4 [1, 2] [3, 4, 5] = ([1, 2] ++ [3, 4, 5], none)) ∧
    (VoiceBuffer.push 4 [1, 2] [3, 4, 5]).1.length ≤ 4 ∧
    (VoiceBuffer.pushAll 4 [1, 2] [[9, 9, 9], [8]]).1.length ≤ 4) :=
  ⟨by decide, voiceBuffer_push_never_overruns 4 [1, 2] [3, 4, 5] [[9, 9, 9], [8]] (by decide)⟩

/-- C6: `on_stop_talking` sets the state to Silent and always flushes:
a non-empty buffer is emitted in full as one clip and cleared, while an
empty buffer produces no hand-off at all. -/
theorem on_stop_talking_always_flushes (s : VoiceBufferForUser) :
    (VoiceBufferForUser.on_stop_talking s).1.speaking = false ∧
    (s.buf = [] →
      VoiceBufferForUser.on_stop_talking s = ({ s with speaking := false }, none)) ∧
    (s.buf ≠ [] →
      VoiceBufferForUser.on_stop_talking s =
        ({ s with speaking := false, buf := [] }, some s.buf)) := by
  unfold VoiceBufferForUser.on_stop_talking VoiceBuffer.flush_buffer
  by_cases hb : s.buf = []
  · refine ⟨by simp [hb], fun _ => by simp [hb], fun hne => absurd hb hne⟩
  · refine ⟨by simp [hb], fun heq => absurd heq hb, fun _ => by simp [hb]⟩

theorem on_stop_talking_always_flushes_witness :
    (VoiceBufferForUser.on_stop_talking ⟨3, [1, 2], true⟩).1.speaking = false ∧
    ((⟨3, [1, 2], true⟩ : VoiceBufferForUser).buf = [] →
      VoiceBufferForUser.on_stop_talking ⟨3, [1, 2], true⟩ =
        ({ (⟨3, [1, 2], true⟩ : VoiceBufferForUser) with speaking := false }, none)) ∧
    ((⟨3, [1, 2], true⟩ : VoiceBufferForUser).buf ≠ [] →
      VoiceBufferForUser.on_stop_talking ⟨3, [1, 2], true⟩ =
        ({ (⟨3, [1, 2], true⟩ : VoiceBufferForUser) with speaking := false, buf := [] },
          some [1, 2])) :=
  on_stop_talking_always_flushes ⟨3, [1, 2], true⟩

/-- C7: in the Silent state, `push` tolerates only an entirely
zero-valued frame; a frame with any non-zero sample is logged as
anomalous; in either case the frame is dropped and the buffer is left
untouched with nothing handed off. -/
theorem silent_push_only_accepts_zero (cap : Nat) (s : VoiceBufferForUser)
    (frame : List AudioSample) (h : s.speaking = false) :
    (VoiceBufferForUser.push cap s frame).1 = s ∧
    (VoiceBufferForUser.push cap s frame).2.1 = none ∧
    ((VoiceBufferForUser.push cap s frame).2.2 = true ↔ ∃ x ∈ frame, x ≠ 0) := by
  unfold VoiceBufferForUser.push
  rw [h]
  rw [if_pos rfl]
  by_cases hall : frame.all (fun sample => sample = 0)
  · rw [if_pos hall]
    refine ⟨rfl, rfl, ?_⟩
    simp only [List.all_eq_true, decide_eq_true_eq] at hall
    constructor
    · intro hfalse
      exact absurd hfalse (by simp)
    · rintro ⟨x, hx, hne⟩
      exact absurd (hall x hx) hne
  · rw [if_neg hall]
    refine ⟨rfl, rfl, ?_⟩
    simp only [List.all_eq_true, decide_eq_true_eq] at hall
    push_neg at hall
    simpa using hall

theorem silent_push_only_accepts_zero_witness :
    (VoiceBufferForUser.push 4 ⟨7, [1], false⟩ [0, 5]).1 = ⟨7, [1], false⟩ ∧
    (VoiceBufferForUser.push 4 ⟨7, [1], false⟩ [0, 5]).2.1 = none ∧
    ((VoiceBufferForUser.push 4 ⟨7, [1], false⟩ [0, 5]).2.2 = true ↔
      ∃ x ∈ ([0, 5] : List AudioSample), x ≠ 0) :=
  silent_push_only_accepts_zero 4 ⟨7, [1], false⟩ [0, 5] rfl

/-- C10: a `push` while Silent never mutates the ring and hands nothing
off, whatever the frame (even all-zero); consequently, along any event
trace started from a fresh empty buffer, every sample of every flushed
clip was pushed while the state was Speaking. -/
theorem silent_push_never_mutates (cap : Nat) (s : VoiceBufferForUser)
    (frame : List AudioSample) (es : List VoiceEvent)
    (s0 : VoiceBufferForUser) (h : s.speaking = false) (h0 : s0.buf = []) :
    (VoiceBufferForUser.push cap s frame).1 = s ∧
    (VoiceBufferForUser.push cap s frame).2.1 = none ∧
    (∀ clip ∈ (VoiceBufferForUser.run cap s0 es).2, ∀ x ∈ clip,
      x ∈ VoiceBufferForUser.spokenSamples cap s0 es) := by
  refine ⟨?_, ?_, ?_⟩
  · unfold VoiceBufferForUser.push
    rw [h, if_pos rfl]
    split <;> rfl
  · unfold VoiceBufferForUser.push
    rw [h, if_pos rfl]
    split <;> rfl
  · intro clip hclip x hx
    rcases (VoiceBufferForUser.run_mem cap es s0).1 clip hclip x hx with hmem | hmem
    · rw [h0] at hmem
      simp at hmem
    · exact hmem

theorem silent_push_never_mutates_witness :
    (VoiceBufferForUser.push 4 ⟨7, [1], false⟩ [0, 0]).1 = ⟨7, [1], false⟩ ∧
    (VoiceBufferForUser.push 4 ⟨7, [1], false⟩ [0, 0]).2.1 = none ∧
    (∀ clip ∈ (VoiceBufferForUser.run 4 (VoiceBufferForUser.new 0)
        [VoiceEvent.push [1, 2], VoiceEvent.stopTalking]).2, ∀ x ∈ clip,
      x ∈ VoiceBufferForUser.spokenSamples 4 (VoiceBufferForUser.new 0)
        [VoiceEvent.push [1, 2], VoiceEvent.stopTalking]) :=
  silent_push_never_mutates 4 ⟨7, [1], false⟩ [0, 0]
    [VoiceEvent.push [1, 2], VoiceEvent.stopTalking]
    (VoiceBufferForUser.new 0) rfl rfl

/-- C5: `on_audio_complete` computes the duration from the sample
count, the channel count and the native rate, and spawns a
transcription task exactly when that duration is at least 500 ms; in
particular a clip computed at 499 ms is silently discarded and one
computed at 500 ms is retained. -/
theorem min_duration_gate (audio : List AudioSample) :
    audio_duration_ms_of audio.length =
      audio.length / AUDIO_CHANNELS / DISCORD_SAMPLES_PER_MILLISECOND ∧
    (on_audio_complete_spawns audio = false ↔
      audio_duration_ms_of audio.length < MIN_AUDIO_THRESHOLD_MS) ∧
    (audio_duration_ms_of audio.length = 499 →
      on_audio_complete_spawns audio = false) ∧
    (audio_duration_ms_of audio.length = 500 →
      on_audio_complete_spawns audio = true) := by
  refine ⟨rfl, ?_, ?_, ?_⟩
  · unfold on_audio_complete_spawns
    split
    · rename_i hlt
      exact ⟨fun _ => hlt, fun _ => rfl⟩
    · rename_i hge
      exact ⟨fun hcontra => absurd hcontra (by simp), fun hlt => absurd hlt hge⟩
  · intro h499
    unfold on_audio_complete_spawns
    rw [if_pos (by rw [h499]; decide)]
  · intro h500
    unfold on_audio_complete_spawns
    rw [if_neg (by rw [h500]; decide)]

theorem min_duration_gate_witness :
    on_audio_complete_spawns (List.replicate 47904 (0 : AudioSample)) = false ∧
    on_audio_complete_spawns (List.replicate 48000 (0 : AudioSample)) = true :=
  ⟨(min_duration_gate (List.replicate 47904 (0 : AudioSample))).2.2.1
      (by rw [audio_duration_ms_of, List.length_replicate]; decide),
   (min_duration_gate (List.replicate 48000 (0 : AudioSample))).2.2.2
      (by rw [audio_duration_ms_of, List.length_replicate]; decide)⟩

/-- C8: when a join/speaking-state event arrives for an SSRC that
already has a session, the stored user id must match (the `assert!`
aborts otherwise, modelled by `none`); on a match the session is
replaced by a brand-new one with a fresh empty buffer and
`speaking = true`, with no clip flushed, whatever audio the old
session's buffer still held. -/
theorem on_user_join_resets_existing_session
    (m : Nat → Option VoiceBufferForUser) (ssrc user_id : Nat)
    (s : VoiceBufferForUser) (h : m ssrc = some s) :
    (s.user_id = user_id →
      PacketHandler.on_user_join m ssrc user_id =
        some (fun k => if k = ssrc then some (VoiceBufferForUser.new user_id)
          else m k, [])) ∧
    (s.user_id ≠ user_id →
      PacketHandler.on_user_join m ssrc user_id = none) := by
  constructor
  · intro hid
    unfold PacketHandler.on_user_join
    rw [h]
    simp only [hid, eq_self_iff_true, if_true]
    have hfun : (fun k => if k = ssrc then some (VoiceBufferForUser.new user_id)
        else if k = ssrc then some (VoiceBufferForUser.on_start_talking s) else m k)
        = (fun k => if k = ssrc then some (VoiceBufferForUser.new user_id) else m k) := by
      funext k
      by_cases hk : k = ssrc <;> simp [hk]
    exact congrArg (fun f => some (f, ([] : List (List AudioSample)))) hfun
  · intro hid
    unfold PacketHandler.on_user_join
    rw [h]
    simp only [if_neg hid]

/-- A concrete session map for the C8 witness: SSRC 7 is tracked for
user 42 with two unflushed samples, not currently speaking. -/
def joinWitnessMap : Nat → Option VoiceBufferForUser := fun k =>
  if k = 7 then some ⟨42, [1, 2], false⟩ else none

theorem on_user_join_resets_existing_session_witness :
    ((⟨42, [1, 2], false⟩ : VoiceBufferForUser).user_id = 42 →
      PacketHandler.on_user_join joinWitnessMap 7 42 =
        some (fun k => if k = 7 then some (VoiceBufferForUser.new 42)
          else joinWitnessMap k, [])) ∧
    ((⟨42, [1, 2], false⟩ : VoiceBufferForUser).user_id ≠ 42 →
      PacketHandler.on_user_join joinWitnessMap 7 42 = none) :=
  on_user_join_resets_existing_session joinWitnessMap 7 42
    ⟨42, [1, 2], false⟩ (by simp [joinWitnessMap])

/-- C9: after the engine returns, an empty segment list leaves the
shared context untouched and emits nothing; a non-empty list emits
exactly one message and overwrites the shared context with the new
utterance's concatenated tokens, its speaker and its completion time. -/
theorem empty_result_leaves_context (tokenize : String → Option (List Int))
    (segments : List TextSegment)
    (unixsecs user_id dur proc end_secs : Nat)
    (ctx : Option LastTranscriptionData) :
    (segments = [] →
      finish_transcription tokenize segments unixsecs user_id dur proc end_secs ctx
        = (ctx, [])) ∧
    (segments ≠ [] →
      finish_transcription tokenize segments unixsecs user_id dur proc end_secs ctx
        = (some
            { tokens := ((segments.map (fun seg => tokenize seg.text)).filterMap
                id).flatten
              timestamp := end_secs
              user_id := user_id },
           [{ timestamp := unixsecs
              user_id := user_id
              text_segments := segments
              audio_duration_ms := dur
              processing_time_ms := proc }])) := by
  constructor
  · intro hempty
    subst hempty
    rfl
  · intro hne
    unfold finish_transcription
    rw [if_neg (by simpa [List.length_eq_zero] using hne)]
    rfl

/-- A concrete text segment for the C9 witness. -/
def witnessSegment : TextSegment :=
  { text := "ok", start_offset_ms := 0, end_offset_ms := 700 }

theorem empty_result_leaves_context_witness :
    (([witnessSegment] : List TextSegment) = [] →
      finish_transcription (fun t => some [(t.length : Int)]) [witnessSegment]
        10 42 900 35 11 none = (none, [])) ∧
    (([witnessSegment] : List TextSegment) ≠ [] →
      finish_transcription (fun t => some [(t.length : Int)]) [witnessSegment]
        10 42 900 35 11 none
        = (some
            { tokens := ((([witnessSegment] : List TextSegment).map
                (fun seg => (fun t => some [(t.length : Int)]) seg.text)).filterMap
                id).flatten
              timestamp := 11
              user_id := 42 },
           [{ timestamp := 10
              user_id := 42
              text_segments := [witnessSegment]
              audio_duration_ms := 900
              processing_time_ms := 35 }])) :=
  empty_result_leaves_context (fun t => some [(t.length : Int)])
    [witnessSegment] 10 42 900 35 11 none

lemma sub_u64_of_le (a b : Nat) (hba : b ≤ a) (ha : a < 2 ^ 64) :
    sub_u64 a b = a - b := by
  unfold sub_u64
  have hsplit : a + 2 ^ 64 - b = (a - b) + 2 ^ 64 := by omega
  rw [hsplit, Nat.add_mod_right, Nat.mod_eq_of_lt (by omega)]

lemma should_use_last_transcription_some (unixsecs user_id : Nat)
    (last : LastTranscriptionData) :
    should_use_last_transcription unixsecs user_id (some last)
      = if sub_u64 unixsecs last.timestamp < 5 then
          if last.user_id = user_id then some last else none
        else none := rfl

/-- C2 counterexample: the prior utterance completes at wall-clock
0.9 s and the next one starts at wall-clock 5.8 s — a gap of 4.9 s,
under 5 s, and the same participant (42) — yet the stored context is
not reused, because the code compares `as_secs`-truncated whole seconds
(5 - 0 = 5, not < 5). -/
theorem context_carryover_claim_false :
    5800 - 900 = 4900 ∧ 4900 < 5000 ∧
    should_use_last_transcription (as_secs_of_ms 5800) 42
      (some { tokens := [], timestamp := as_secs_of_ms 900, user_id := 42 })
      = none := by
  refine ⟨rfl, by decide, ?_⟩
  decide

/-- C2 amended: the stored context is reused iff it belongs to the same
participant and the difference of the two completion times, each first
truncated to whole seconds (`as_secs`), is under 5; consequently a gap
of exactly 5.1 s never reuses the context, while a 4.9 s gap reuses it
only when the truncated-second difference stays below 5. -/
theorem context_carryover_truncated_seconds
    (now_ms prior_ms uid uid2 : Nat) (toks : List Int)
    (h1 : prior_ms ≤ now_ms) (h2 : now_ms < 2 ^ 64) :
    (should_use_last_transcription (as_secs_of_ms now_ms) uid
        (some { tokens := toks, timestamp := as_secs_of_ms prior_ms,
                user_id := uid2 })
      = some { tokens := toks, timestamp := as_secs_of_ms prior_ms,
               user_id := uid2 } ↔
      (uid2 = uid ∧ as_secs_of_ms now_ms - as_secs_of_ms prior_ms < 5)) ∧
    (now_ms = prior_ms + 5100 →
      should_use_last_transcription (as_secs_of_ms now_ms) uid
        (some { tokens := toks, timestamp := as_secs_of_ms prior_ms,
                user_id := uid2 })
        = none) := by
  have hsecs_le : as_secs_of_ms prior_ms ≤ as_secs_of_ms now_ms :=
    Nat.div_le_div_right h1
  have hsecs_lt : as_secs_of_ms now_ms < 2 ^ 64 :=
    lt_of_le_of_lt (Nat.div_le_self _ _) h2
  have hsub : sub_u64 (as_secs_of_ms now_ms) (as_secs_of_ms prior_ms)
      = as_secs_of_ms now_ms - as_secs_of_ms prior_ms :=
    sub_u64_of_le _ _ hsecs_le hsecs_lt
  constructor
  · simp only [should_use_last_transcription_some]
    rw [hsub]
    by_cases ht : as_secs_of_ms now_ms - as_secs_of_ms prior_ms < 5
    · rw [if_pos ht]
      by_cases hu : uid2 = uid
      · rw [if_pos hu]
        simp [hu, ht]
      · rw [if_neg hu]
        simp [hu]
    · rw [if_neg ht]
      simp [ht]
  · intro hgap
    subst hgap
    simp only [should_use_last_transcription_some]
    rw [hsub]
    rw [if_neg]
    unfold as_secs_of_ms
    omega

theorem context_carryover_truncated_seconds_witness :
    (0 ≤ 4000 ∧ 4000 < 2 ^ 64) ∧
    ((should_use_last_transcription (as_secs_of_ms 4000) 1
        (some { tokens := [], timestamp := as_secs_of_ms 0, user_id := 1 })
      = some { tokens := [], timestamp := as_secs_of_ms 0, user_id := 1 } ↔
      ((1 : Nat) = 1 ∧ as_secs_of_ms 4000 - as_secs_of_ms 0 < 5)) ∧
    ((4000 : Nat) = 0 + 5100 →
      should_use_last_transcription (as_secs_of_ms 4000) 1
        (some { tokens := [], timestamp := as_secs_of_ms 0, user_id := 1 })
        = none)) :=
  ⟨⟨by decide, by norm_num⟩,
   context_carryover_truncated_seconds 4000 0 1 1 [] (by decide) (by norm_num)⟩

lemma GROUP_SIZE_eq : GROUP_SIZE = 6 := rfl

lemma AUDIO_CHANNELS_eq : AUDIO_CHANNELS = 2 := rfl

lemma resampleSums_replicate (len : Nat) (c : AudioSample) :
    resampleSums (List.replicate len c)
      = List.replicate (len / GROUP_SIZE) (2 * (c : ℚ)) := by
  unfold resampleSums
  rw [List.length_replicate]
  refine List.eq_replicate_iff.mpr ⟨by simp, ?_⟩
  intro b hb
  rw [List.mem_map] at hb
  obtain ⟨i, hi, rfl⟩ := hb
  rw [List.mem_range] at hi
  simp only [GROUP_SIZE_eq, AUDIO_CHANNELS_eq] at hi ⊢
  have hle : 6 * i + 6 ≤ len := by omega
  rw [List.drop_replicate, List.take_replicate]
  have hmin : min 2 (len - 6 * i) = 2 := by omega
  rw [hmin, List.map_replicate, List.sum_replicate, nsmul_eq_mul]
  norm_num

lemma audioMax_foldl_const (x : ℚ) (hx : 0 ≤ x) :
    ∀ n : Nat,
      List.foldl (fun m v => if |v| > m then |v| else m) x (List.replicate n x)
        = x := by
  intro n
  induction n with
  | zero => rfl
  | succ k ih =>
    simp only [List.replicate_succ, List.foldl_cons]
    rw [abs_of_nonneg hx, if_neg (lt_irrefl x)]
    exact ih

lemma audioMax_replicate_succ (k : Nat) (x : ℚ) (hx : 0 ≤ x) :
    audioMax (List.replicate (k + 1) x) = x := by
  unfold audioMax
  simp only [List.replicate_succ, List.foldl_cons]
  have h0 : (if |x| > 0 then |x| else 0) = x := by
    rw [abs_of_nonneg hx]
    rcases lt_or_eq_of_le hx with h | h
    · rw [if_pos h]
    · rw [if_neg (by rw [← h]; exact lt_irrefl 0)]
      exact h
  rw [h0]
  exact audioMax_foldl_const x hx k

lemma audioMax_replicate_zero_val (n : Nat) :
    audioMax (List.replicate n (0 : ℚ)) = 0 := by
  cases n with
  | zero => rfl
  | succ k => exact audioMax_replicate_succ k 0 le_rfl

/-- C3: the resampler turns each group of `ratio × channels` native
samples into the sum of the group's first `channels` samples (ratio is
3 here), then divides every output by the peak absolute value; for a
constant stereo clip of amplitude 100 every output sample is exactly
1. -/
theorem resample_constant_clip (len : Nat) (h : GROUP_SIZE ≤ len) :
    BITRATE_CONVERSION_RATIO = 3 ∧
    0 < len / GROUP_SIZE ∧
    resample_audio_from_discord_to_whisper (List.replicate len (100 : AudioSample))
      = List.replicate (len / GROUP_SIZE) 1 := by
  have hq : 0 < len / GROUP_SIZE := Nat.div_pos h (by decide)
  refine ⟨rfl, hq, ?_⟩
  unfold resample_audio_from_discord_to_whisper
  rw [resampleSums_replicate]
  have hval : (2 : ℚ) * ((100 : Int) : ℚ) = 200 := by norm_num
  rw [hval]
  obtain ⟨k, hk⟩ : ∃ k, len / GROUP_SIZE = k + 1 :=
    ⟨len / GROUP_SIZE - 1, by omega⟩
  rw [hk, audioMax_replicate_succ k 200 (by norm_num), List.map_replicate]
  norm_num

theorem resample_constant_clip_witness :
    GROUP_SIZE ≤ 6 ∧
    ( BITRATE_CONVERSION_RATIO = 3 ∧
    0 < 6 / GROUP_SIZE ∧
    resample_audio_from_discord_to_whisper (List.replicate 6 (100 : AudioSample))
      = List.replicate (6 / GROUP_SIZE) 1) :=
  ⟨by decide, resample_constant_clip 6 (by decide)⟩

/-- C4: the claim is right and the code is wrong.  A 500 ms all-zero
clip passes the duration gate, its resampled sums are all zero, so the
running maximum `audio_max` is `0`, and the final normalization loop
still divides every sample by it — the guard the claim requires does
not exist in the code. -/
theorem resample_allzero_divides_by_zero :
    on_audio_complete_spawns (List.replicate 48000 (0 : AudioSample)) = true ∧
    resampleSums (List.replicate 48000 (0 : AudioSample))
      = List.replicate 8000 (0 : ℚ) ∧
    audioMax (List.replicate 8000 (0 : ℚ)) = 0 ∧
    resample_audio_from_discord_to_whisper (List.replicate 48000 (0 : AudioSample))
      = (List.replicate 8000 (0 : ℚ)).map (fun sample => sample / 0) := by
  have hsums : resampleSums (List.replicate 48000 (0 : AudioSample))
      = List.replicate 8000 (0 : ℚ) := by
    rw [resampleSums_replicate]
    norm_num [GROUP_SIZE_eq]
  have hmax : audioMax (List.replicate 8000 (0 : ℚ)) = 0 :=
    audioMax_replicate_zero_val 8000
  refine ⟨?_, hsums, hmax, ?_⟩
  · unfold on_audio_complete_spawns
    rw [List.length_replicate]
    decide
  · unfold resample_audio_from_discord_to_whisper
    rw [hsums, hmax]
